import Mathlib

/-!
Verification of the batch-generation pipeline of the `fastdata` repository
(`examples/pidgin_simple.py`, `examples/pidgin_news.py`,
`examples/pidgin_generator.py`).

The Python sources are shallowly embedded: Python strings are `List Char`,
Python's `str.split`, `str.strip`, `in`, the `json` module, and the regex
substitutions used by the two generators are modelled by executable Lean
functions that mirror the reference semantics of those operations as used by
the source files; the stateful batch driver and progress tracker become
explicit state passing, and the thread/clock behaviour of the rate gate
becomes a step relation on traces.
-/

namespace Fastdata

/-! ### Python string primitives

`isPrefAt p s` is Python's "string `s` starts with `p`", `findSub sep s`
is `s.find(sep)` (position of the first occurrence of `sep`, as an
`Option`), `pySplit sep s` is `s.split(sep)` for a non-empty separator and
`pyStrip` is `s.strip()`.  `pyIn sep s` is Python's `sep in s`. -/

def isPrefAt : List Char → List Char → Bool
  | [], _ => true
  | _ :: _, [] => false
  | a :: ps, b :: ss => a == b && isPrefAt ps ss

def findSub (sep : List Char) : List Char → Option Nat
  | [] => if isPrefAt sep [] then some 0 else none
  | c :: t => if isPrefAt sep (c :: t) then some 0 else (findSub sep t).map (· + 1)

def pyIn (sep s : List Char) : Bool := (findSub sep s).isSome

def pySplitGo (sep : List Char) : Nat → List Char → List (List Char)
  | 0, s => [s]
  | fuel + 1, s =>
    match findSub sep s with
    | none => [s]
    | some i => s.take i :: pySplitGo sep fuel (s.drop (i + sep.length))

def pySplit (sep s : List Char) : List (List Char) := pySplitGo sep (s.length + 1) s

def pyWs (c : Char) : Bool := c = ' ' || c = '\t' || c = '\n' || c = '\r' || c = '\x0b' || c = '\x0c'

def pyStrip (s : List Char) : List Char :=
  ((s.dropWhile pyWs).reverse.dropWhile pyWs).reverse

/-- The control-character strip of both generators:
`re.sub(r"[\x00-\x1f\x7f-\x9f]", "", json_str)`. -/
def stripCtrl (s : List Char) : List Char :=
  s.filter (fun c => !(c.toNat ≤ 0x1f || (0x7f ≤ c.toNat && c.toNat ≤ 0x9f)))

/-! ### Fence markers used by the payload extraction -/

def btick : Char := Char.ofNat 96

def fence3 : List Char := "```".toList

def fenceJson : List Char := "```json".toList

theorem fence3_eq : fence3 = btick :: btick :: btick :: [] := by decide

theorem fenceJson_eq :
    fenceJson = btick :: btick :: btick :: 'j' :: 's' :: 'o' :: 'n' :: [] := by decide

/-! ### A model of Python's `json.loads`

The generators call `json.loads` on the extracted payload and
`response.json()` on the HTTP body.  `JsonVal` is the parsed value
(numbers keep their raw lexeme, which is all the pipeline ever needs),
and `parseValue` is a fuel-based recursive-descent parser following the
JSON grammar as accepted by Python's strict-mode `json` module: literal
`null`/`true`/`false`, numbers, strings with the eight single-character
escapes and `\uXXXX`, arrays and objects; raw control characters below
`0x20` are rejected inside strings. -/

inductive JsonVal where
  | jnull : JsonVal
  | jbool (b : Bool) : JsonVal
  | jnum (lexeme : List Char) : JsonVal
  | jstr (s : List Char) : JsonVal
  | jarr (elems : List JsonVal) : JsonVal
  | jobj (fields : List (List Char × JsonVal)) : JsonVal

def jsonWsChar (c : Char) : Bool := c = ' ' || c = '\t' || c = '\n' || c = '\r'

def skipWs (s : List Char) : List Char := s.dropWhile jsonWsChar

def hexVal (c : Char) : Option Nat :=
  if '0' ≤ c ∧ c ≤ '9' then some (c.toNat - '0'.toNat)
  else if 'a' ≤ c ∧ c ≤ 'f' then some (c.toNat - 'a'.toNat + 10)
  else if 'A' ≤ c ∧ c ≤ 'F' then some (c.toNat - 'A'.toNat + 10)
  else none

def parseHex4 : List Char → Option (Nat × List Char)
  | a :: b :: c :: d :: rest => do
    let va ← hexVal a
    let vb ← hexVal b
    let vc ← hexVal c
    let vd ← hexVal d
    pure (((va * 16 + vb) * 16 + vc) * 16 + vd, rest)
  | _ => none

/-- String body after the opening quote; returns the decoded characters and
the remaining input after the closing quote. -/
def parseStringBody : Nat → List Char → Option (List Char × List Char)
  | 0, _ => none
  | _ + 1, [] => none
  | fuel + 1, c :: rest =>
    if c = '"' then some ([], rest)
    else if c = '\\' then
      match rest with
      | [] => none
      | e :: rest2 =>
        if e = '"' ∨ e = '\\' ∨ e = '/' then do
          let (tail, rem) ← parseStringBody fuel rest2
          pure (e :: tail, rem)
        else if e = 'b' then do
          let (tail, rem) ← parseStringBody fuel rest2
          pure ('\x08' :: tail, rem)
        else if e = 'f' then do
          let (tail, rem) ← parseStringBody fuel rest2
          pure ('\x0c' :: tail, rem)
        else if e = 'n' then do
          let (tail, rem) ← parseStringBody fuel rest2
          pure ('\n' :: tail, rem)
        else if e = 'r' then do
          let (tail, rem) ← parseStringBody fuel rest2
          pure ('\r' :: tail, rem)
        else if e = 't' then do
          let (tail, rem) ← parseStringBody fuel rest2
          pure ('\t' :: tail, rem)
        else if e = 'u' then do
          let (n, rest3) ← parseHex4 rest2
          let (tail, rem) ← parseStringBody fuel rest3
          pure (Char.ofNat n :: tail, rem)
        else none
    else if c.toNat < 0x20 then none
    else do
      let (tail, rem) ← parseStringBody fuel rest
      pure (c :: tail, rem)

def digitSpan (s : List Char) : List Char × List Char :=
  (s.takeWhile Char.isDigit, s.dropWhile Char.isDigit)

/-- JSON number lexeme: `-?(0|[1-9][0-9]*)(\.[0-9]+)?([eE][-+]?[0-9]+)?`. -/
def parseNumber (s : List Char) : Option (List Char × List Char) := do
  let (sign, s1) := match s with
    | '-' :: t => (['-'], t)
    | t => (([] : List Char), t)
  let (intPart, s2) ← match s1 with
    | '0' :: t => some (['0'], t)
    | c :: t =>
      if c.isDigit then
        let (ds, rest) := digitSpan t
        some (c :: ds, rest)
      else none
    | [] => none
  let (fracPart, s3) ← match s2 with
    | '.' :: t =>
      let (ds, rest) := digitSpan t
      if ds.isEmpty then none else some ('.' :: ds, rest)
    | t => some (([] : List Char), t)
  let (expPart, s4) ← match s3 with
    | e :: t =>
      if e = 'e' ∨ e = 'E' then
        let (esign, t2) := match t with
          | '+' :: u => (['+'], u)
          | '-' :: u => (['-'], u)
          | u => (([] : List Char), u)
        let (ds, rest) := digitSpan t2
        if ds.isEmpty then none else some (e :: (esign ++ ds), rest)
      else some (([] : List Char), e :: t)
    | [] => some (([] : List Char), [])
  pure (sign ++ intPart ++ fracPart ++ expPart, s4)

mutual

def parseValue : Nat → List Char → Option (JsonVal × List Char)
  | 0, _ => none
  | fuel + 1, s =>
    match skipWs s with
    | [] => none
    | c :: rest =>
      if c = '"' then do
        let (str, rem) ← parseStringBody (fuel + 1) rest
        pure (JsonVal.jstr str, rem)
      else if c = '\x7b' then
        match skipWs rest with
        | '\x7d' :: rem => some (JsonVal.jobj [], rem)
        | rest2 => do
          let (fields, rem) ← parseMembers fuel rest2
          pure (JsonVal.jobj fields, rem)
      else if c = '[' then
        match skipWs rest with
        | ']' :: rem => some (JsonVal.jarr [], rem)
        | rest2 => do
          let (elems, rem) ← parseElems fuel rest2
          pure (JsonVal.jarr elems, rem)
      else
        match c :: rest with
        | 'n' :: 'u' :: 'l' :: 'l' :: rem => some (JsonVal.jnull, rem)
        | 't' :: 'r' :: 'u' :: 'e' :: rem => some (JsonVal.jbool true, rem)
        | 'f' :: 'a' :: 'l' :: 's' :: 'e' :: rem => some (JsonVal.jbool false, rem)
        | s2 => do
          let (lexeme, rem) ← parseNumber s2
          pure (JsonVal.jnum lexeme, rem)

def parseMembers : Nat → List Char → Option (List (List Char × JsonVal) × List Char)
  | 0, _ => none
  | fuel + 1, s =>
    match skipWs s with
    | '"' :: rest => do
      let (key, rem1) ← parseStringBody (fuel + 1) rest
      match skipWs rem1 with
      | ':' :: rem2 => do
        let (v, rem3) ← parseValue fuel rem2
        match skipWs rem3 with
        | ',' :: rem4 => do
          let (fields, rem5) ← parseMembers fuel rem4
          pure ((key, v) :: fields, rem5)
        | '\x7d' :: rem4 => pure ([(key, v)], rem4)
        | _ => none
      | _ => none
    | _ => none

def parseElems : Nat → List Char → Option (List JsonVal × List Char)
  | 0, _ => none
  | fuel + 1, s => do
    let (v, rem1) ← parseValue fuel s
    match skipWs rem1 with
    | ',' :: rem2 => do
      let (elems, rem3) ← parseElems fuel rem2
      pure (v :: elems, rem3)
    | ']' :: rem2 => pure ([v], rem2)
    | _ => none

end

/-- Model of `json.loads`: parse one value and require only trailing
whitespace after it. -/
def jsonLoads (s : List Char) : Option JsonVal :=
  match parseValue (2 * s.length + 2) s with
  | some (v, rem) => if (skipWs rem).isEmpty then some v else none
  | none => none

/-- Python `dict` lookup for the parsed object: with duplicate keys the
later binding wins, as in `json.loads`. -/
def pyGet (fields : List (List Char × JsonVal)) (k : List Char) : Option JsonVal :=
  (fields.reverse.find? (fun kv => kv.1 == k)).map (fun kv => kv.2)

/-! ### Payload extraction, escape repair and schema validation

`extract_json` is the shared extraction logic of `generate_one` in both
`pidgin_simple.py` (lines 230-236) and `pidgin_news.py` (lines 332-338):

    if "```json" in text:
        json_str = text.split("```json")[1].split("```")[0].strip()
    elif "```" in text:
        json_str = text.split("```")[1].split("```")[0].strip()
    else:
        json_str = text.strip()
-/

def extract_json (text : List Char) : List Char :=
  if pyIn fenceJson text then
    pyStrip ((pySplit fence3 ((pySplit fenceJson text).getD 1 [])).getD 0 [])
  else if pyIn fence3 text then
    pyStrip ((pySplit fence3 ((pySplit fence3 text).getD 1 [])).getD 0 [])
  else pyStrip text

/-- The inner `fix_escapes` callback of `pidgin_news.generate_one`
(lines 346-355).  `escaped` is `match.group(1)` of the pattern `\\(.)`,
hence always exactly one character; the model keeps the source's
`len(escaped) == 5` test on that one-character group verbatim. -/
def fix_escapes (escaped : List Char) : List Char :=
  if escaped = ['"'] ∨ escaped = ['\\'] ∨ escaped = ['/'] ∨ escaped = ['b'] ∨
      escaped = ['f'] ∨ escaped = ['n'] ∨ escaped = ['r'] ∨ escaped = ['t'] then
    '\\' :: escaped
  else if (escaped.headD ' ' = 'u') ∧ escaped.length = 5 then
    '\\' :: escaped
  else
    '\\' :: '\\' :: escaped

/-- Model of `re.sub(r"\\(.)", fix_escapes, json_str)` of `pidgin_news.py` line 357:
a left-to-right, non-overlapping scan; `.` does not match a newline, so a
backslash followed by a newline is not a match and scanning resumes at the
newline. -/
def fixEscapesSub : List Char → List Char
  | [] => []
  | '\\' :: c :: rest =>
    if c = '\n' then '\\' :: fixEscapesSub (c :: rest)
    else fix_escapes [c] ++ fixEscapesSub rest
  | c :: rest => c :: fixEscapesSub rest

/-- The validated schema of both generators (`class PidginText(BaseModel)`). -/
structure PidginText where
  title : List Char
  content : List Char
deriving DecidableEq

/-- Schema validation `PidginText.model_validate(data)`: the parsed value must be an object
whose `title` and `content` members are strings (pydantic does not coerce
non-string values to `str` and ignores extra fields). -/
def model_validate (v : JsonVal) : Option PidginText :=
  match v with
  | JsonVal.jobj fields =>
    match pyGet fields "title".toList, pyGet fields "content".toList with
    | some (JsonVal.jstr t), some (JsonVal.jstr c) => some ⟨t, c⟩
    | _, _ => none
  | _ => none

/-- Extraction + control strip + parse + validate of
`pidgin_simple.generate_one` (lines 230-244), as a function of the raw
response text. -/
def pipelineSimple (text : List Char) : Option PidginText :=
  match jsonLoads (stripCtrl (extract_json text)) with
  | some v => model_validate v
  | none => none

/-- Extraction + control strip + escape repair + parse + validate of
`pidgin_news.generate_one` (lines 332-362). -/
def pipelineNews (text : List Char) : Option PidginText :=
  match jsonLoads (fixEscapesSub (stripCtrl (extract_json text))) with
  | some v => model_validate v
  | none => none

/-! ### The generation worker (`generate_one`)

The worker is embedded as a function of the combination, the credential
and the outcome of the one `requests.post` call.  A Python exception is an
`Except` error; the `try:` block of the source catches every `Exception`
and turns it into the `(None, str(e))` return, while code before the
`try:` (the f-string prompt construction, which subscripts the combination
dict) can raise uncaught.  Exception message texts are abbreviated — only
their presence matters to the source's control flow. -/

/-- Outcome of `requests.post(...)`: either the call raises (transport
error, timeout), or it returns a response with a status code and a body. -/
inductive NetOutcome where
  | transportError (msg : List Char) : NetOutcome
  | response (status : Nat) (body : List Char) : NetOutcome

/-- A combination dict as passed to the worker. -/
def Combo := List (List Char × List Char)

/-- Subscript `combo["k"]`: raises `KeyError` when the field is absent. -/
def comboGet (combo : Combo) (k : List Char) : Except (List Char) (List Char) :=
  match (List.reverse combo).find? (fun kv => kv.1 == k) with
  | some kv => Except.ok kv.2
  | none => Except.error ("KeyError: ".toList ++ k)

/-- Python `k in v` on a parsed JSON value (`in` raises `TypeError` on
non-container values such as numbers). -/
def pyInOp (k : List Char) (v : JsonVal) : Except (List Char) Bool :=
  match v with
  | JsonVal.jobj fs => Except.ok (fs.any (fun kv => kv.1 == k))
  | JsonVal.jarr xs =>
    Except.ok (xs.any (fun x => match x with | JsonVal.jstr s => s == k | _ => false))
  | JsonVal.jstr s => Except.ok (pyIn k s)
  | _ => Except.error "TypeError: argument not iterable".toList

/-- Python `v["k"]` on a parsed JSON value. -/
def pyIndexKey (v : JsonVal) (k : List Char) : Except (List Char) JsonVal :=
  match v with
  | JsonVal.jobj fs =>
    match pyGet fs k with
    | some x => Except.ok x
    | none => Except.error ("KeyError: ".toList ++ k)
  | _ => Except.error "TypeError: indices must be integers".toList

/-- Python `v[i]` on a parsed JSON value. -/
def pyIndexNat (v : JsonVal) (i : Nat) : Except (List Char) JsonVal :=
  match v with
  | JsonVal.jarr xs =>
    match xs.get? i with
    | some x => Except.ok x
    | none => Except.error "IndexError: list index out of range".toList
  | _ => Except.error "TypeError: not subscriptable".toList

/-- The value must be a Python `str` for the extraction's string
operations (otherwise `"x" in text` raises `TypeError`). -/
def asPyStr (v : JsonVal) : Except (List Char) (List Char) :=
  match v with
  | JsonVal.jstr s => Except.ok s
  | _ => Except.error "TypeError: expected str".toList

/-- Python falsiness of a parsed JSON value (`not response_data["choices"]`). -/
def pyFalsy (v : JsonVal) : Bool :=
  match v with
  | JsonVal.jnull => true
  | JsonVal.jbool b => !b
  | JsonVal.jnum lex => lex.all (fun c => !c.isDigit || c = '0')
  | JsonVal.jstr s => s.isEmpty
  | JsonVal.jarr xs => xs.isEmpty
  | JsonVal.jobj fs => fs.isEmpty

/-- Abbreviated `str(value)` (feeds only into error-message text). -/
def pyStr (v : JsonVal) : List Char :=
  match v with
  | JsonVal.jnull => "None".toList
  | JsonVal.jbool b => if b then "True".toList else "False".toList
  | JsonVal.jnum lex => lex
  | JsonVal.jstr s => s
  | JsonVal.jarr _ => "[...]".toList
  | JsonVal.jobj _ => "\x7b...\x7d".toList

/-- Method `raise_for_status()` raises `HTTPError` for 4xx/5xx status codes. -/
def raiseForStatus (status : Nat) : Except (List Char) Unit :=
  if 400 ≤ status then Except.error ("HTTPError: ".toList ++ (toString status).toList)
  else Except.ok ()

/-- Method `response.json()` raises on a body that is not valid JSON. -/
def responseJson (body : List Char) : Except (List Char) JsonVal :=
  match jsonLoads body with
  | some v => Except.ok v
  | none => Except.error "JSONDecodeError".toList

/-- Body of the `try:` block of `pidgin_simple.generate_one`
(lines 210-244): post, `raise_for_status`, `response.json()`,
`["choices"][0]["message"]["content"]`, extraction, control strip,
`json.loads`, `PidginText.model_validate`. -/
def tryBodySimple (net : NetOutcome) : Except (List Char) PidginText := do
  let (status, body) ← match net with
    | NetOutcome.transportError msg => Except.error msg
    | NetOutcome.response s b => Except.ok (s, b)
  let _ ← raiseForStatus status
  let responseData ← responseJson body
  let choices ← pyIndexKey responseData "choices".toList
  let first ← pyIndexNat choices 0
  let message ← pyIndexKey first "message".toList
  let content ← pyIndexKey message "content".toList
  let text ← asPyStr content
  match jsonLoads (stripCtrl (extract_json text)) with
  | none => Except.error "json.loads: Expecting value".toList
  | some v =>
    match model_validate v with
    | none => Except.error "ValidationError".toList
    | some r => Except.ok r

/-- Body of the `try:` block of `pidgin_news.generate_one`
(lines 297-362): additionally checks for an `error` member and for
missing/empty `choices`, and repairs escapes before parsing.  The explicit
error checks `return` from inside the `try:`, so they are ordinary results
here, not exceptions; exceptions raised while producing them are still
caught. -/
def tryBodyNews (net : NetOutcome) : Except (List Char) (Option PidginText × Option (List Char)) :=
  match net with
  | NetOutcome.transportError msg => Except.error msg
  | NetOutcome.response status body =>
    match raiseForStatus status with
    | Except.error e => Except.error e
    | Except.ok _ =>
      match responseJson body with
      | Except.error e => Except.error e
      | Except.ok responseData =>
        match pyInOp "error".toList responseData with
        | Except.error e => Except.error e
        | Except.ok true =>
          match pyIndexKey responseData "error".toList with
          | Except.error e => Except.error e
          | Except.ok errVal =>
            match errVal with
            | JsonVal.jobj fs =>
              Except.ok (none, some ("API Error: ".toList ++
                ((pyGet fs "message".toList).map pyStr |>.getD (pyStr errVal))))
            | _ => Except.error "AttributeError: no attribute get".toList
        | Except.ok false =>
          match pyInOp "choices".toList responseData with
          | Except.error e => Except.error e
          | Except.ok false =>
            Except.ok (none, some ("No choices in response: ".toList ++ pyStr responseData))
          | Except.ok true =>
            match pyIndexKey responseData "choices".toList with
            | Except.error e => Except.error e
            | Except.ok choices =>
              if pyFalsy choices then
                Except.ok (none, some ("No choices in response: ".toList ++ pyStr responseData))
              else
                match pyIndexNat choices 0 with
                | Except.error e => Except.error e
                | Except.ok first =>
                  match pyIndexKey first "message".toList with
                  | Except.error e => Except.error e
                  | Except.ok message =>
                    match pyIndexKey message "content".toList with
                    | Except.error e => Except.error e
                    | Except.ok content =>
                      match asPyStr content with
                      | Except.error e => Except.error e
                      | Except.ok text =>
                        match jsonLoads (fixEscapesSub (stripCtrl (extract_json text))) with
                        | none => Except.error "json.loads: Expecting value".toList
                        | some v =>
                          match model_validate v with
                          | none => Except.error "ValidationError".toList
                          | some r => Except.ok (some r, none)

/-- Worker `pidgin_simple.generate_one` (lines 181-247).  The prompt f-string
subscripts the combination before the `try:`, so a missing field raises
uncaught (outer `Except.error`); everything inside the `try:` is caught
and becomes the `(None, str(e))` return. -/
def generate_one_simple (apiKey : List Char) (combo : Combo) (net : NetOutcome) :
    Except (List Char) (Option PidginText × Option (List Char)) :=
  match comboGet combo "genre".toList, comboGet combo "topic".toList,
      comboGet combo "setting".toList, comboGet combo "tone".toList,
      comboGet combo "speaker".toList, comboGet combo "time_period".toList with
  | Except.ok genre, Except.ok topic, Except.ok setting, Except.ok tone,
      Except.ok speaker, Except.ok timePeriod =>
    let _prompt := "Write a ".toList ++ genre ++ " in Nigerian Pidgin about ".toList ++
      topic ++ "\nSetting: ".toList ++ setting ++ "\nTone: ".toList ++ tone ++
      "\nSpeaker: ".toList ++ speaker ++ "\nTime: ".toList ++ timePeriod
    let _auth := "Bearer ".toList ++ apiKey
    Except.ok (match tryBodySimple net with
      | Except.ok r => (some r, none)
      | Except.error e => (none, some e))
  | Except.error e, _, _, _, _, _ => Except.error e
  | _, Except.error e, _, _, _, _ => Except.error e
  | _, _, Except.error e, _, _, _ => Except.error e
  | _, _, _, Except.error e, _, _ => Except.error e
  | _, _, _, _, Except.error e, _ => Except.error e
  | _, _, _, _, _, Except.error e => Except.error e

/-- Worker `pidgin_news.generate_one` (lines 252-365), after its rate-gate
section (the gate only sleeps and touches the shared timer, modelled
separately as `gateStep`; it does not affect the returned value).  The
prompt f-string additionally subscripts `combo["complexity"]`. -/
def generate_one_news (apiKey : List Char) (combo : Combo) (net : NetOutcome) :
    Except (List Char) (Option PidginText × Option (List Char)) :=
  match comboGet combo "genre".toList, comboGet combo "topic".toList,
      comboGet combo "setting".toList, comboGet combo "tone".toList,
      comboGet combo "speaker".toList, comboGet combo "time_period".toList,
      comboGet combo "complexity".toList with
  | Except.ok genre, Except.ok topic, Except.ok setting, Except.ok tone,
      Except.ok speaker, Except.ok timePeriod, Except.ok complexity =>
    let _prompt := "Write a ".toList ++ genre ++ " in Nigerian Pidgin about ".toList ++
      topic ++ "\n\nContext:\n- Setting: ".toList ++ setting ++ "\n- Tone: ".toList ++
      tone ++ "\n- Speaker: ".toList ++ speaker ++ "\n- Time frame: ".toList ++
      timePeriod ++ "\n- Complexity: ".toList ++ complexity
    let _auth := "Bearer ".toList ++ apiKey
    Except.ok (match tryBodyNews net with
      | Except.ok out => out
      | Except.error e => (none, some e))
  | Except.error e, _, _, _, _, _, _ => Except.error e
  | _, Except.error e, _, _, _, _, _ => Except.error e
  | _, _, Except.error e, _, _, _, _ => Except.error e
  | _, _, _, Except.error e, _, _, _ => Except.error e
  | _, _, _, _, Except.error e, _, _ => Except.error e
  | _, _, _, _, _, Except.error e, _ => Except.error e
  | _, _, _, _, _, _, Except.error e => Except.error e

/-! ### Dimension grids and combination filtering

`pidgin_simple.py` (dimension lists, `is_valid_combo`, `generate_inputs`)
and `pidgin_generator.py` (`is_valid_combination`, `generate_inputs`).
A combination is the 6-tuple produced by `itertools.product`. -/

abbrev SixCombo := String × String × String × String × String × String

def simpleTopics : List String :=
  ["family_and_home", "market_and_trading", "health_and_wellness", "food_and_cooking",
   "religion_and_faith", "work_and_hustle", "love_and_relationships", "education_and_school",
   "transport_and_travel", "entertainment", "community_and_neighbors", "technology_and_phones",
   "politics_and_government", "weather_and_farming", "celebrations_and_events",
   "sports_and_games", "money_and_finance", "housing_and_rent", "police_and_security",
   "marriage_and_weddings", "death_and_funerals", "current_events", "science_and_nature",
   "history_and_culture", "law_and_justice", "environment_and_climate", "business_and_economy",
   "youth_and_children", "women_and_gender", "mental_health"]

def simpleGenres : List String :=
  ["story", "dialogue", "monologue", "instructions", "news_report", "letter", "folklore",
   "life_advice", "complaint", "praise", "gossip", "testimony", "article", "news_analysis",
   "lecture", "sermon", "speech", "opinion", "review", "announcement"]

def simpleSettings : List String :=
  ["lagos_urban", "village_rural", "market", "church_mosque", "workplace", "home", "street",
   "busstop", "hospital", "school"]

def simpleTones : List String :=
  ["happy_excited", "sad_reflective", "angry_frustrated", "funny_playful", "serious_urgent",
   "hopeful_inspiring", "worried_anxious", "proud_boastful", "confused_uncertain"]

def simpleSpeakers : List String :=
  ["elder_wise", "young_adult", "parent", "trader_business", "community_member", "child",
   "teacher", "pastor_imam", "girlfriend_boyfriend", "neighbor"]

def simpleTimePeriods : List String := ["present_day", "past_memory", "future_hopes"]

/-- The `itertools.product` of six lists, in the reference order. -/
def product6 (l1 l2 l3 l4 l5 l6 : List String) : List SixCombo :=
  l1.flatMap fun a => l2.flatMap fun b => l3.flatMap fun c =>
    l4.flatMap fun d => l5.flatMap fun e => l6.map fun f => (a, b, c, d, e, f)

/-- Filter `pidgin_simple.is_valid_combo` (lines 144-154). -/
def is_valid_combo (combo : SixCombo) : Bool :=
  let (_, genre, _, _, _, time_period) := combo
  if genre = "folklore" ∧ time_period = "future_hopes" then false
  else if genre = "news_report" ∧ time_period = "past_memory" then false
  else if genre = "instructions" ∧ time_period = "past_memory" then false
  else true

/-- The filtered list `valid` of `pidgin_simple.generate_inputs`
(line 162); the subsequent seeded shuffle permutes it in place. -/
def validCombosSimple : List SixCombo :=
  (product6 simpleTopics simpleGenres simpleSettings simpleTones simpleSpeakers
    simpleTimePeriods).filter is_valid_combo

def generatorTopics : List String :=
  ["family_and_home", "market_and_trading", "health_and_wellness", "food_and_cooking",
   "religion_and_faith", "work_and_hustle", "love_and_relationships", "education_and_school",
   "transport_and_travel", "entertainment", "community_and_neighbors", "technology_and_phones",
   "politics_and_government", "weather_and_farming", "celebrations_and_events"]

def generatorGenres : List String :=
  ["story", "dialogue", "monologue", "instructions", "news_report", "letter", "folklore",
   "life_advice"]

def generatorSettings : List String :=
  ["lagos_urban", "village_rural", "market", "church_mosque", "workplace", "home"]

def generatorTones : List String :=
  ["happy_excited", "sad_reflective", "angry_frustrated", "funny_playful", "serious_urgent",
   "hopeful_inspiring"]

def generatorSpeakers : List String :=
  ["elder_wise", "young_adult", "parent", "trader_business", "community_member"]

def generatorTimePeriods : List String := ["present_day", "past_memory", "future_hopes"]

/-- Filter `pidgin_generator.is_valid_combination` (lines 136-152): the same
three exclusion rules. -/
def is_valid_combination (combo : SixCombo) : Bool :=
  let (_, genre, _, _, _, time_period) := combo
  if genre = "folklore" ∧ time_period = "future_hopes" then false
  else if genre = "news_report" ∧ time_period = "past_memory" then false
  else if genre = "instructions" ∧ time_period = "past_memory" then false
  else true

/-- The filtered list `valid_combinations` of
`pidgin_generator.generate_inputs` (line 169). -/
def validCombosGenerator : List SixCombo :=
  (product6 generatorTopics generatorGenres generatorSettings generatorTones
    generatorSpeakers generatorTimePeriods).filter is_valid_combination

/-! ### Progress tracking

The progress file is one JSON object; the fields the two tools ever read
or write are modelled as optional members.  `none` means the key is
absent, so `data.get(k, default)` is `Option.getD`. -/

structure ProgressData where
  successful_indices : Option (List Nat) := none
  processed_indices : Option (List Nat) := none
  seed : Option Int := none
  total : Option Nat := none
  successful_count : Option Nat := none

/-- Loader `pidgin_news.load_progress` (lines 373-384):
`set(data.get("successful_indices", data.get("processed_indices", [])))`. -/
def load_progress_news (data : ProgressData) : Finset Nat :=
  (data.successful_indices.getD (data.processed_indices.getD [])).toFinset

/-- Loader `pidgin_simple.load_progress` (lines 255-262):
`set(data.get("processed_indices", []))`. -/
def load_progress_simple (data : ProgressData) : Finset Nat :=
  (data.processed_indices.getD []).toFinset

/-- Saver `pidgin_news.save_progress` (lines 387-400): the whole file is
rewritten with `successful_indices` sorted, plus `seed`, `total` and
`successful_count`. -/
def save_progress_news (successful : Finset Nat) (total : Nat) (seed : Int) : ProgressData :=
  { successful_indices := some (successful.sort (· ≤ ·))
    seed := some seed
    total := some total
    successful_count := some successful.card }

/-- Saver `pidgin_simple.save_progress` (lines 265-277): `processed_indices`
sorted, a hard-coded `seed` of 42 and `total`. -/
def save_progress_simple (processed : Finset Nat) (total : Nat) : ProgressData :=
  { processed_indices := some (processed.sort (· ≤ ·))
    seed := some 42
    total := some total }

/-- In `pidgin_news.main` line 500: the seed that orders the combination
list is always the live wall-clock date `int(datetime.now().strftime("%Y%m%d"))`;
the progress file on disk is not consulted for it. -/
def newsResumeOrderingSeed (todayYYYYMMDD : Int) (_progressOnDisk : ProgressData) : Int :=
  todayYYYYMMDD

/-! ### The batch drivers' result loops

`pidgin_news.main` (lines 555-563) adds an index to the `successful` set
only when the worker reported success; `pidgin_simple.main` (lines
386-389) adds every completed index to `processed` unconditionally.  A
run's completion sequence is a list of `(index, success)` pairs. -/

/-- One iteration of the `as_completed` loop of `pidgin_news.main`:
`if success: successful.add(idx)`. -/
def newsDriverUpdate (successful : Finset Nat) (idx : Nat) (success : Bool) : Finset Nat :=
  if success then insert idx successful else successful

/-- One iteration of the `as_completed` loop of `pidgin_simple.main`:
`processed.add(idx)` runs before the `if success:` branch, for every
completed future. -/
def simpleDriverUpdate (processed : Finset Nat) (idx : Nat) (_success : Bool) : Finset Nat :=
  insert idx processed

/-- The whole result loop of `pidgin_news.main` over a completion
sequence. -/
def runNewsDriver (init : Finset Nat) (results : List (Nat × Bool)) : Finset Nat :=
  results.foldl (fun s r => newsDriverUpdate s r.1 r.2) init

/-- The whole result loop of `pidgin_simple.main` over a completion
sequence. -/
def runSimpleDriver (init : Finset Nat) (results : List (Nat × Bool)) : Finset Nat :=
  results.foldl (fun s r => simpleDriverUpdate s r.1 r.2) init

/-- The list `unprocessed = [i for i in range(len(all_inputs)) if i not in successful]`
(`pidgin_news.main` line 522, `pidgin_simple.main` line 355). -/
def unprocessedIndices (total : Nat) (successful : Finset Nat) : List Nat :=
  (List.range total).filter (fun i => i ∉ successful)

/-! ### The batch driver under an always-succeeding endpoint (C9)

`process_combo` (`pidgin_news.py` lines 403-419, `pidgin_simple.py` lines
280-295) appends, under the single shared `write_lock`, one whole line to
the success file on success or one to the failure file otherwise; the
lock serializes every file append and the progress rewrite, so in the
model an append is one atomic list extension and a file is a list of
complete lines.  With an endpoint that always succeeds, a run is
determined by the order in which the submitted tasks complete. -/

structure BatchState where
  successLines : List PidginText
  failedLines : List PidginText
  successful : Finset Nat

/-- One task completion with an always-succeeding worker: `process_combo`
appends the record, then the driver loop marks the index successful. -/
def batchStepSuccess (record : Nat → PidginText) (st : BatchState) (idx : Nat) : BatchState :=
  { st with
    successLines := st.successLines ++ [record idx]
    successful := insert idx st.successful }

/-- A full batch run over the completion order `order`. -/
def runBatchAlwaysSuccess (record : Nat → PidginText) (order : List Nat) : BatchState :=
  order.foldl (batchStepSuccess record) ⟨[], [], ∅⟩

/-! ### The global rate gate (C8)

`pidgin_news.py` lines 28-31 and 255-263: a worker entering the gate
holds `rate_limit_lock` for the whole section, reads `time.time()`,
sleeps for the remainder of `MIN_REQUEST_INTERVAL` if too little time has
passed since `last_request_time`, then stores a fresh `time.time()` as
the new `last_request_time` and issues its request.  Because the lock is
held throughout, gate executions are serialized; a run is a trace of gate
events.  `entry` is the first clock read of an event and `recorded` the
value stored as `last_request_time`.  The physical assumptions are
(a) the wall clock is monotone, so the entry read of a gate execution is
at or after the previous execution's recorded write, and (b) `time.sleep(d)`
suspends for at least `d`, so the post-sleep read is at least `entry`
plus the sleep duration. -/

def MIN_REQUEST_INTERVAL : ℚ := 1 / 2

structure GateEvent where
  entry : ℚ
  recorded : ℚ

/-- Sleep performed by the gate given the shared timer and the entry
read: `if time_since_last < MIN_REQUEST_INTERVAL: time.sleep(...)`. -/
def gateSleep (last entry : ℚ) : ℚ :=
  if entry - last < MIN_REQUEST_INTERVAL then MIN_REQUEST_INTERVAL - (entry - last) else 0

/-- A physically possible serialized trace of gate events starting from
shared timer value `last`. -/
def ValidGateTrace : ℚ → List GateEvent → Prop
  | _, [] => True
  | last, e :: rest =>
    last ≤ e.entry ∧ e.entry + gateSleep last e.entry ≤ e.recorded ∧
      ValidGateTrace e.recorded rest

/-- Consecutive recorded request-start times (including the initial timer
value) are spaced by at least the minimum interval. -/
def SpacedTrace : ℚ → List GateEvent → Prop
  | _, [] => True
  | last, e :: rest => last + MIN_REQUEST_INTERVAL ≤ e.recorded ∧ SpacedTrace e.recorded rest

/-- Composition `json.loads` followed by `PidginText.model_validate` applied to a
payload directly (source lines 242-243 resp. 360-361 applied to a given
`json_str`): the notion of "a JSON payload of a record". -/
def bareParseValidate (s : List Char) : Option PidginText :=
  match jsonLoads s with
  | some v => model_validate v
  | none => none

/-- A concrete fully-populated seven-field combination as produced by
`pidgin_news.generate_inputs`, used to instantiate worker-level
theorems. -/
def comboFixture : Combo :=
  [("genre".toList, "story".toList), ("topic".toList, "family_and_home".toList),
   ("setting".toList, "home".toList), ("tone".toList, "happy_excited".toList),
   ("speaker".toList, "parent".toList), ("time_period".toList, "present_day".toList),
   ("complexity".toList, "case_study".toList)]

/-- A concrete six-field combination as produced by
`pidgin_simple.generate_inputs` (no `complexity` field), used to
instantiate worker-level theorems. -/
def comboFixtureSimple : Combo :=
  [("genre".toList, "story".toList), ("topic".toList, "family_and_home".toList),
   ("setting".toList, "home".toList), ("tone".toList, "happy_excited".toList),
   ("speaker".toList, "parent".toList), ("time_period".toList, "present_day".toList)]

/-! ## Claim theorems -/

/-- Claim C10: progress persistence round-trips within each tool: saving a
set of indices (sorted into a list under the tool's own field name)
and loading it back from the same file returns exactly that set, for the
news tool (`successful_indices`) and the simple tool
(`processed_indices`) alike. -/
theorem C10_progress_roundtrip (s : Finset Nat) (total : Nat) (seed : Int)
    (p : Finset Nat) (total2 : Nat) :
    load_progress_news (save_progress_news s total seed) = s ∧
    load_progress_simple (save_progress_simple p total2) = p := by
  constructor <;>
    simp [load_progress_news, save_progress_news, load_progress_simple,
      save_progress_simple, Finset.sort_toFinset]

/-- Claim C4, counterexample: the claim quantifies over both tools'
loaders, but `pidgin_simple.load_progress` reads only
`processed_indices`; on a progress file that stores the indices under
`successful_indices` it returns the empty set instead of the stored
set. -/
theorem C4_counterexample :
    load_progress_simple { successful_indices := some [5] } = (∅ : Finset Nat) ∧
    ({5} : Finset Nat) ≠ (∅ : Finset Nat) := by
  constructor
  · rfl
  · decide

/-- Claim C4 as amended: the news tool's loader accepts either of the two
field names — it returns the integers stored under `successful_indices`
when that field is present (also when both are, preferring it) and those
under `processed_indices` otherwise — while the simple tool's loader
reads only `processed_indices`. -/
theorem C4_amended (idxs other : List Nat) (sd : Option Int) (tot cnt : Option Nat) :
    load_progress_news
        { successful_indices := some idxs, seed := sd, total := tot,
          successful_count := cnt } = idxs.toFinset ∧
    load_progress_news
        { processed_indices := some idxs, seed := sd, total := tot,
          successful_count := cnt } = idxs.toFinset ∧
    load_progress_news
        { successful_indices := some idxs, processed_indices := some other,
          seed := sd, total := tot, successful_count := cnt } = idxs.toFinset ∧
    load_progress_simple
        { processed_indices := some idxs, seed := sd, total := tot,
          successful_count := cnt } = idxs.toFinset :=
  ⟨rfl, rfl, rfl, rfl⟩

/-- Claim C3: in the daily-seed news tool the combination ordering of a
resumed run is NOT computed from the seed recorded in the progress file:
`main` derives the shuffle seed from the live wall-clock date
(line 500) and `load_progress` returns only the index set, ignoring the
stored `seed` field entirely.  Evaluated at the failing input: a progress
file written on 2025-01-01 (seed 20250101, index 0 recorded) that is
loaded on 2025-01-02 is interpreted under ordering seed 20250102, and
loading is insensitive to the stored seed. -/
theorem C3_live_clock_seed :
    newsResumeOrderingSeed 20250102
        { successful_indices := some [0], seed := some 20250101, total := some 100 } =
      20250102 ∧
    (20250102 : Int) ≠ 20250101 ∧
    load_progress_news
        { successful_indices := some [0], seed := some 20250101, total := some 100 } =
      load_progress_news
        { successful_indices := some [0], seed := some 99999, total := some 100 } := by
  refine ⟨rfl, by decide, rfl⟩

/-- Membership in the final progress set of the news driver's result loop:
an index is present exactly when it was present initially or some
completed task for it succeeded. -/
theorem runNewsDriver_mem (results : List (Nat × Bool)) :
    ∀ (init : Finset Nat) (x : Nat),
      x ∈ runNewsDriver init results ↔ x ∈ init ∨ (x, true) ∈ results := by
  induction results with
  | nil => intro init x; simp [runNewsDriver]
  | cons r rest ih =>
    intro init x
    obtain ⟨i, b⟩ := r
    cases b with
    | true =>
      simp only [runNewsDriver, List.foldl_cons] at *
      rw [show newsDriverUpdate init i true = insert i init from rfl] at *
      rw [ih (insert i init) x]
      simp [Finset.mem_insert]
      tauto
    | false =>
      simp only [runNewsDriver, List.foldl_cons] at *
      rw [show newsDriverUpdate init i false = init from rfl] at *
      rw [ih init x]
      simp

/-- Claim C1, counterexample: in `pidgin_simple.main` the index of a
combination whose worker returned a failure IS added to the persisted
progress set (`processed.add(idx)` runs unconditionally), so it does not
reappear in the unprocessed list of a subsequent invocation. -/
theorem C1_counterexample :
    runSimpleDriver ∅ [(3, false)] = ({3} : Finset Nat) ∧
    3 ∉ unprocessedIndices 10 (runSimpleDriver ∅ [(3, false)]) := by
  constructor
  · rfl
  · decide

/-- The simple driver's fold only ever inserts, so membership is
preserved along it. -/
theorem foldl_simple_mono (results : List (Nat × Bool)) :
    ∀ (s : Finset Nat) (x : Nat), x ∈ s →
      x ∈ results.foldl (fun acc r => simpleDriverUpdate acc r.1 r.2) s := by
  induction results with
  | nil => intro s x h; simpa using h
  | cons r rest ih =>
    intro s x h
    simp only [List.foldl_cons]
    exact ih _ x (Finset.mem_insert_of_mem h)

/-- Any completed index, successful or not, lands in the simple driver's
progress set. -/
theorem runSimpleDriver_mem_of (results : List (Nat × Bool)) :
    ∀ (init : Finset Nat) (x : Nat) (b : Bool), (x, b) ∈ results →
      x ∈ runSimpleDriver init results := by
  induction results with
  | nil => intro init x b h; simp at h
  | cons r rest ih =>
    intro init x b h
    rcases List.mem_cons.mp h with h1 | h2
    · subst h1
      have hbase : x ∈ simpleDriverUpdate init x b := Finset.mem_insert_self x init
      simp only [runSimpleDriver, List.foldl_cons]
      exact foldl_simple_mono rest _ x hbase
    · exact ih _ x b h2

/-- Claim C1 as amended: in the news batch driver (`pidgin_news.main`) an
index whose worker failed — and never succeeded in the run — is not added
to the persisted progress set and therefore reappears in the unprocessed
list of a subsequent invocation, while every index with a successful
completion is added; the simple driver (`pidgin_simple.main`), by
contrast, adds every completed index to its progress set regardless of
outcome. -/
theorem C1_amended (init : Finset Nat) (results : List (Nat × Bool)) (idx total : Nat)
    (hfail : (idx, false) ∈ results) (hnosucc : (idx, true) ∉ results)
    (hnew : idx ∉ init) :
    idx ∉ runNewsDriver init results ∧
    (idx < total → idx ∈ unprocessedIndices total (runNewsDriver init results)) ∧
    (∀ j, (j, true) ∈ results → j ∈ runNewsDriver init results) ∧
    idx ∈ runSimpleDriver init results := by
  have hmem : idx ∉ runNewsDriver init results := by
    rw [runNewsDriver_mem]
    tauto
  refine ⟨hmem, ?_, ?_, ?_⟩
  · intro hlt
    simp [unprocessedIndices, List.mem_filter, List.mem_range]
    exact ⟨hlt, hmem⟩
  · intro j hj
    rw [runNewsDriver_mem]
    exact Or.inr hj
  · exact runSimpleDriver_mem_of results init idx false hfail

theorem C1_amended_witness :
    (((3 : Nat), false) ∈ [((3 : Nat), false), (5, true)] ∧
      ((3 : Nat), true) ∉ [((3 : Nat), false), (5, true)] ∧ (3 : Nat) ∉ (∅ : Finset Nat)) ∧
    (3 ∉ runNewsDriver ∅ [(3, false), (5, true)] ∧
      (3 < 10 → 3 ∈ unprocessedIndices 10 (runNewsDriver ∅ [(3, false), (5, true)])) ∧
      (∀ j, (j, true) ∈ [((3 : Nat), false), (5, true)] →
        j ∈ runNewsDriver ∅ [(3, false), (5, true)]) ∧
      3 ∈ runSimpleDriver ∅ [(3, false), (5, true)]) :=
  ⟨⟨by decide, by decide, by decide⟩,
    C1_amended ∅ [(3, false), (5, true)] 3 10 (by decide) (by decide) (by decide)⟩

/-- A combination surviving `is_valid_combo` satisfies none of the three
exclusion rules. -/
theorem valid_combo_rules {c : SixCombo} (h : is_valid_combo c = true) :
    ¬(c.2.1 = "folklore" ∧ c.2.2.2.2.2 = "future_hopes") ∧
    ¬(c.2.1 = "news_report" ∧ c.2.2.2.2.2 = "past_memory") ∧
    ¬(c.2.1 = "instructions" ∧ c.2.2.2.2.2 = "past_memory") := by
  obtain ⟨t, g, s, tn, sp, tp⟩ := c
  simp only [is_valid_combo] at h
  split_ifs at h with h1 h2 h3
  exact ⟨h1, h2, h3⟩

/-- Claim C6: no combination in the list returned by the input generator —
the filtered product, in any order the seeded shuffle may put it in —
violates an exclusion rule: none pairs genre `folklore` with time period
`future_hopes`, none pairs `news_report` with `past_memory`, and none
pairs `instructions` with `past_memory`.  This covers both
`pidgin_simple.generate_inputs` and `pidgin_generator.generate_inputs`. -/
theorem C6_no_excluded_combination (shuffled : List SixCombo)
    (hperm : shuffled.Perm validCombosSimple ∨ shuffled.Perm validCombosGenerator) :
    ∀ c ∈ shuffled,
      ¬(c.2.1 = "folklore" ∧ c.2.2.2.2.2 = "future_hopes") ∧
      ¬(c.2.1 = "news_report" ∧ c.2.2.2.2.2 = "past_memory") ∧
      ¬(c.2.1 = "instructions" ∧ c.2.2.2.2.2 = "past_memory") := by
  intro c hc
  rcases hperm with hp | hp
  · have hmem : c ∈ validCombosSimple := hp.mem_iff.mp hc
    exact valid_combo_rules (List.of_mem_filter hmem)
  · have hmem : c ∈ validCombosGenerator := hp.mem_iff.mp hc
    have hvalid : is_valid_combination c = true := List.of_mem_filter hmem
    exact valid_combo_rules (show is_valid_combo c = true from hvalid)

theorem C6_no_excluded_combination_witness :
    (validCombosSimple.Perm validCombosSimple ∨ validCombosSimple.Perm validCombosGenerator) ∧
    (∀ c ∈ validCombosSimple,
      ¬(c.2.1 = "folklore" ∧ c.2.2.2.2.2 = "future_hopes") ∧
      ¬(c.2.1 = "news_report" ∧ c.2.2.2.2.2 = "past_memory") ∧
      ¬(c.2.1 = "instructions" ∧ c.2.2.2.2.2 = "past_memory")) :=
  ⟨Or.inl (List.Perm.refl _),
    C6_no_excluded_combination validCombosSimple (Or.inl (List.Perm.refl _))⟩

/-- Claim C8: the rate gate enforms a global minimum spacing — in every
physically possible serialized trace of gate executions, each recorded
request-start time is at least `MIN_REQUEST_INTERVAL` (0.5 s) after the
previous one (and after the initial shared timer value): the gate reads
the shared last-request time under its lock, sleeps for the remainder of
the interval, and records a fresh clock reading before proceeding. -/
theorem C8_rate_gate_spacing (events : List GateEvent) :
    ∀ last : ℚ, ValidGateTrace last events → SpacedTrace last events := by
  induction events with
  | nil => intro last _; trivial
  | cons e rest ih =>
    intro last h
    obtain ⟨h1, h2, h3⟩ := h
    refine ⟨?_, ih e.recorded h3⟩
    by_cases hc : e.entry - last < MIN_REQUEST_INTERVAL
    · rw [gateSleep, if_pos hc] at h2
      linarith
    · rw [gateSleep, if_neg hc] at h2
      push_neg at hc
      linarith

theorem C8_rate_gate_spacing_witness :
    ValidGateTrace 0 [⟨0, 1/2⟩, ⟨3/5, 11/10⟩] ∧
    SpacedTrace 0 [⟨0, 1/2⟩, ⟨3/5, 11/10⟩] := by
  have hvalid : ValidGateTrace 0 [⟨0, 1/2⟩, ⟨3/5, 11/10⟩] := by
    refine ⟨by norm_num, ?_, by norm_num, ?_, trivial⟩ <;>
      norm_num [gateSleep, MIN_REQUEST_INTERVAL]
  exact ⟨hvalid, C8_rate_gate_spacing _ 0 hvalid⟩

/-- Unrolling the always-success batch run: the success file accumulates
one whole line per completed task in completion order, the failure file
stays empty, and the progress set accumulates the completed indices. -/
theorem runBatch_characterization (record : Nat → PidginText) (order : List Nat) :
    ∀ st : BatchState,
      (order.foldl (batchStepSuccess record) st).successLines =
        st.successLines ++ order.map record ∧
      (order.foldl (batchStepSuccess record) st).failedLines = st.failedLines ∧
      (order.foldl (batchStepSuccess record) st).successful =
        st.successful ∪ order.toFinset := by
  induction order with
  | nil => intro st; simp
  | cons a l ih =>
    intro st
    simp only [List.foldl_cons]
    obtain ⟨ih1, ih2, ih3⟩ := ih (batchStepSuccess record st a)
    refine ⟨?_, ?_, ?_⟩
    · rw [ih1]; simp [batchStepSuccess]
    · rw [ih2]; rfl
    · rw [ih3]
      show insert a st.successful ∪ l.toFinset = st.successful ∪ (a :: l).toFinset
      ext x
      simp only [List.toFinset_cons, Finset.mem_insert, Finset.mem_union]
      tauto

/-- Claim C9: with worker count > 1 and an always-succeeding endpoint the
batch driver — whose file appends and progress rewrite are all serialized
by the one shared `write_lock`, so each append is one whole line — writes
exactly one success line per submitted combination (the success file is
the completion order mapped through the record, its length is the number
of submitted combinations, and every submitted index completes exactly
once), writes nothing to the failure file, and ends with a progress set
equal to the set of submitted indices, which, being a set, holds no
duplicates. -/
theorem C9_concurrent_batch (record : Nat → PidginText) (toProcess order : List Nat)
    (hperm : order.Perm toProcess) (hnodup : toProcess.Nodup) :
    (runBatchAlwaysSuccess record order).successLines = order.map record ∧
    (runBatchAlwaysSuccess record order).successLines.length = toProcess.length ∧
    (∀ i ∈ toProcess, order.count i = 1) ∧
    (runBatchAlwaysSuccess record order).failedLines = [] ∧
    (runBatchAlwaysSuccess record order).successful = toProcess.toFinset := by
  obtain ⟨h1, h2, h3⟩ := runBatch_characterization record order ⟨[], [], ∅⟩
  rw [runBatchAlwaysSuccess]
  refine ⟨by simpa using h1, ?_, ?_, by simpa using h2, ?_⟩
  · rw [h1]
    simp [hperm.length_eq]
  · intro i hi
    rw [hperm.count_eq]
    exact List.count_eq_one_of_mem hnodup hi
  · rw [h3]
    ext x
    simp [List.mem_toFinset, hperm.mem_iff]

theorem C9_concurrent_batch_witness :
    ([2, 0, 1].Perm [0, 1, 2] ∧ ([0, 1, 2] : List Nat).Nodup) ∧
    ((runBatchAlwaysSuccess (fun _ => ⟨"t".toList, "c".toList⟩) [2, 0, 1]).successLines =
        [2, 0, 1].map (fun _ => ⟨"t".toList, "c".toList⟩) ∧
      (runBatchAlwaysSuccess (fun _ => ⟨"t".toList, "c".toList⟩) [2, 0, 1]).successLines.length =
        ([0, 1, 2] : List Nat).length ∧
      (∀ i ∈ ([0, 1, 2] : List Nat), [2, 0, 1].count i = 1) ∧
      (runBatchAlwaysSuccess (fun _ => ⟨"t".toList, "c".toList⟩) [2, 0, 1]).failedLines = [] ∧
      (runBatchAlwaysSuccess (fun _ => ⟨"t".toList, "c".toList⟩) [2, 0, 1]).successful =
        ([0, 1, 2] : List Nat).toFinset) :=
  ⟨⟨by decide, by decide⟩,
    C9_concurrent_batch (fun _ => ⟨"t".toList, "c".toList⟩) [0, 1, 2] [2, 0, 1]
      (by decide) (by decide)⟩

/-- Every non-exceptional return of the news worker's `try:` body is
either a validated record with no error or an error string with no
record. -/
theorem tryBodyNews_shape (net : NetOutcome) (out : Option PidginText × Option (List Char))
    (h : tryBodyNews net = Except.ok out) :
    (∃ r, out = (some r, none)) ∨ (∃ e, out = (none, some e)) := by
  unfold tryBodyNews at h
  cases net with
  | transportError msg => exact Except.noConfusion h
  | response status body =>
    repeat' split at h
    all_goals
      first
        | exact Except.noConfusion h
        | (injection h with h2; subst h2; exact Or.inl ⟨_, rfl⟩)
        | (injection h with h2; subst h2; exact Or.inr ⟨_, rfl⟩)

/-- Claim C7: the generation worker is total at its interface.  For every
combination carrying the six dimension fields the simple prompt template
subscripts and every API-key string, the simple worker returns normally
(no uncaught exception, whatever the network outcome — transport error,
non-2xx status, malformed body, missing response structure, malformed
payload or schema-validation failure) and the returned pair is either
`(validated record, no error)` or `(no record, error string)`; when the
combination additionally carries the `complexity` field its template
subscripts, the news worker does likewise. -/
theorem C7_worker_never_raises (apiKey : List Char) (combo : Combo) (net : NetOutcome)
    (hfields : ∀ k ∈ ["genre", "topic", "setting", "tone", "speaker", "time_period"],
      ∃ v, comboGet combo k.toList = Except.ok v) :
    (∃ out, generate_one_simple apiKey combo net = Except.ok out ∧
      ((∃ r, out = (some r, none)) ∨ (∃ e, out = (none, some e)))) ∧
    ((∃ v, comboGet combo "complexity".toList = Except.ok v) →
      ∃ out, generate_one_news apiKey combo net = Except.ok out ∧
        ((∃ r, out = (some r, none)) ∨ (∃ e, out = (none, some e)))) := by
  obtain ⟨g, hg⟩ := hfields "genre" (by simp)
  obtain ⟨t, ht⟩ := hfields "topic" (by simp)
  obtain ⟨s, hs⟩ := hfields "setting" (by simp)
  obtain ⟨tn, htn⟩ := hfields "tone" (by simp)
  obtain ⟨sp, hsp⟩ := hfields "speaker" (by simp)
  obtain ⟨tp, htp⟩ := hfields "time_period" (by simp)
  have eSimple : generate_one_simple apiKey combo net =
      Except.ok (match tryBodySimple net with
        | Except.ok r => (some r, none)
        | Except.error e => (none, some e)) := by
    unfold generate_one_simple
    rw [hg, ht, hs, htn, hsp, htp]
  constructor
  · cases hbody : tryBodySimple net with
    | ok r =>
      refine ⟨(some r, none), ?_, Or.inl ⟨r, rfl⟩⟩
      rw [eSimple, hbody]
    | error e =>
      refine ⟨(none, some e), ?_, Or.inr ⟨e, rfl⟩⟩
      rw [eSimple, hbody]
  · intro hcomplexity
    obtain ⟨cx, hcx⟩ := hcomplexity
    have eNews : generate_one_news apiKey combo net =
        Except.ok (match tryBodyNews net with
          | Except.ok out => out
          | Except.error e => (none, some e)) := by
      unfold generate_one_news
      rw [hg, ht, hs, htn, hsp, htp, hcx]
    cases hbody : tryBodyNews net with
    | ok out =>
      refine ⟨out, ?_, tryBodyNews_shape net out hbody⟩
      rw [eNews, hbody]
    | error e =>
      refine ⟨(none, some e), ?_, Or.inr ⟨e, rfl⟩⟩
      rw [eNews, hbody]

theorem C7_worker_never_raises_witness :
    ((∀ k ∈ ["genre", "topic", "setting", "tone", "speaker", "time_period"],
        ∃ v, comboGet comboFixtureSimple k.toList = Except.ok v) ∧
      (∀ k ∈ ["genre", "topic", "setting", "tone", "speaker", "time_period"],
        ∃ v, comboGet comboFixture k.toList = Except.ok v) ∧
      (∃ v, comboGet comboFixture "complexity".toList = Except.ok v)) ∧
    ((∃ out, generate_one_simple "key".toList comboFixtureSimple
          (NetOutcome.response 500 "oops".toList) = Except.ok out ∧
        ((∃ r, out = (some r, none)) ∨ (∃ e, out = (none, some e)))) ∧
      (∃ out, generate_one_news "key".toList comboFixture
          (NetOutcome.response 500 "oops".toList) = Except.ok out ∧
        ((∃ r, out = (some r, none)) ∨ (∃ e, out = (none, some e))))) := by
  have hfieldsS : ∀ k ∈ ["genre", "topic", "setting", "tone", "speaker", "time_period"],
      ∃ v, comboGet comboFixtureSimple k.toList = Except.ok v := by
    intro k hk
    fin_cases hk <;> exact ⟨_, rfl⟩
  have hfieldsN : ∀ k ∈ ["genre", "topic", "setting", "tone", "speaker", "time_period"],
      ∃ v, comboGet comboFixture k.toList = Except.ok v := by
    intro k hk
    fin_cases hk <;> exact ⟨_, rfl⟩
  have hcx : ∃ v, comboGet comboFixture "complexity".toList = Except.ok v := ⟨_, rfl⟩
  exact ⟨⟨hfieldsS, hfieldsN, hcx⟩,
    (C7_worker_never_raises "key".toList comboFixtureSimple
      (NetOutcome.response 500 "oops".toList) hfieldsS).1,
    (C7_worker_never_raises "key".toList comboFixture
      (NetOutcome.response 500 "oops".toList) hfieldsN).2 hcx⟩

/-- Claim C2, evaluated at the failing input.  The repair does fix a
genuinely invalid escape (`\s` parses to a literal backslash and `s`
after repair, while failing to parse before it), but it does NOT leave
`\uXXXX` unicode escapes unchanged: `fix_escapes` receives the single
captured character of `\\(.)` as `match.group(1)`, so its
`len(escaped) == 5` unicode test can never hold and the backslash of
`\u0041` is doubled, turning a payload that parses to the character `A`
into one that parses to the six literal characters `\u0041`. -/
theorem C2_unicode_escape_destroyed :
    fixEscapesSub "\"a\\sb\"".toList = "\"a\\\\sb\"".toList ∧
    jsonLoads "\"a\\sb\"".toList = none ∧
    jsonLoads (fixEscapesSub "\"a\\sb\"".toList) = some (JsonVal.jstr "a\\sb".toList) ∧
    fixEscapesSub "\"\\u0041\"".toList = "\"\\\\u0041\"".toList ∧
    jsonLoads "\"\\u0041\"".toList = some (JsonVal.jstr ['A']) ∧
    jsonLoads (fixEscapesSub "\"\\u0041\"".toList) = some (JsonVal.jstr "\\u0041".toList) ∧
    "\\u0041".toList ≠ ['A'] := by
  refine ⟨rfl, rfl, rfl, rfl, rfl, rfl, by decide⟩

/-! ### Occurrence bookkeeping for the fence markers (toward C5) -/

theorem isPrefAt_append_self : ∀ p r : List Char, isPrefAt p (p ++ r) = true := by
  intro p
  induction p with
  | nil => intro r; rfl
  | cons a ps ih => intro r; simp [isPrefAt, ih r]

theorem findSub_self_append (sep r : List Char) (h : sep ≠ []) :
    findSub sep (sep ++ r) = some 0 := by
  cases sep with
  | nil => exact absurd rfl h
  | cons c cs =>
    show findSub (c :: cs) (c :: (cs ++ r)) = some 0
    rw [findSub, if_pos]
    exact isPrefAt_append_self (c :: cs) r

theorem findSub_cons_none {sep : List Char} {c : Char} {t : List Char}
    (h : findSub sep (c :: t) = none) :
    isPrefAt sep (c :: t) = false ∧ findSub sep t = none := by
  rw [findSub] at h
  by_cases hp : isPrefAt sep (c :: t) = true
  · rw [if_pos hp] at h; exact absurd h (by simp)
  · rw [if_neg hp] at h
    refine ⟨Bool.eq_false_iff.mpr hp, ?_⟩
    cases hf : findSub sep t with
    | none => rfl
    | some i => rw [hf] at h; exact absurd h (by simp)

theorem prefJ_implies_pref3 : ∀ l : List Char,
    isPrefAt fenceJson l = true → isPrefAt fence3 l = true := by
  intro l h
  match l with
  | [] => rw [fenceJson_eq] at h; exact absurd h (by simp [isPrefAt])
  | [a] => rw [fenceJson_eq] at h; simp [isPrefAt] at h
  | [a, b] => rw [fenceJson_eq] at h; simp [isPrefAt] at h
  | a :: b :: c :: rest =>
    rw [fenceJson_eq] at h
    rw [fence3_eq]
    simp only [isPrefAt, Bool.and_eq_true] at h ⊢
    exact ⟨h.1, h.2.1, h.2.2.1, trivial⟩

theorem findSub3_none_implies_J : ∀ s : List Char,
    findSub fence3 s = none → findSub fenceJson s = none := by
  intro s
  induction s with
  | nil => intro _; rfl
  | cons c t ih =>
    intro h
    obtain ⟨h1, h2⟩ := findSub_cons_none h
    rw [findSub, if_neg, ih h2]
    · rfl
    · intro hp
      rw [prefJ_implies_pref3 (c :: t) hp] at h1
      exact absurd h1 (by simp)

theorem pref3_newline_through (c : Char) (t r : List Char)
    (h : isPrefAt fence3 (c :: t) = false) :
    isPrefAt fence3 (c :: (t ++ '\n' :: r)) = false := by
  match t with
  | [] =>
    rw [fence3_eq]
    simp only [List.nil_append, isPrefAt]
    rw [show (btick == '\n') = false from by decide]
    simp
  | [a] =>
    rw [fence3_eq]
    simp only [List.cons_append, List.nil_append, isPrefAt]
    rw [show (btick == '\n') = false from by decide]
    simp
  | a :: b :: t' =>
    rw [fence3_eq] at h ⊢
    simp only [List.cons_append, isPrefAt, Bool.and_eq_true] at h ⊢
    simpa using h

theorem prefJ_newline_through (c : Char) (t r : List Char)
    (h : isPrefAt fence3 (c :: t) = false) :
    isPrefAt fenceJson (c :: (t ++ '\n' :: r)) = false := by
  match t with
  | [] =>
    rw [fenceJson_eq]
    simp only [List.nil_append, isPrefAt]
    rw [show (btick == '\n') = false from by decide]
    simp
  | [a] =>
    rw [fenceJson_eq]
    simp only [List.cons_append, List.nil_append, isPrefAt]
    rw [show (btick == '\n') = false from by decide]
    simp
  | a :: b :: t' =>
    rw [fenceJson_eq]
    simp only [List.cons_append, isPrefAt]
    cases hc : (btick == c) with
    | false => simp
    | true =>
      cases ha : (btick == a) with
      | false => simp
      | true =>
        cases hb : (btick == b) with
        | false => simp
        | true =>
          rw [fence3_eq] at h
          simp [isPrefAt, hc, ha, hb] at h

theorem findSub3_append_newline : ∀ j r : List Char, findSub fence3 j = none →
    findSub fence3 (j ++ '\n' :: r) = (findSub fence3 r).map (· + (j.length + 1)) := by
  intro j
  induction j with
  | nil =>
    intro r _
    show findSub fence3 ('\n' :: r) = _
    rw [findSub, if_neg]
    · cases findSub fence3 r with
      | none => rfl
      | some i => simp
    · rw [fence3_eq]
      simp only [isPrefAt]
      rw [show (btick == '\n') = false from by decide]
      simp
  | cons c t ih =>
    intro r h
    obtain ⟨h1, h2⟩ := findSub_cons_none h
    show findSub fence3 (c :: (t ++ '\n' :: r)) = _
    rw [findSub, if_neg (by rw [pref3_newline_through c t r h1]; simp), ih r h2]
    cases findSub fence3 r with
    | none => rfl
    | some i => simp; omega

theorem findSubJ_append_newline : ∀ j r : List Char, findSub fence3 j = none →
    findSub fenceJson (j ++ '\n' :: r) = (findSub fenceJson r).map (· + (j.length + 1)) := by
  intro j
  induction j with
  | nil =>
    intro r _
    show findSub fenceJson ('\n' :: r) = _
    rw [findSub, if_neg]
    · cases findSub fenceJson r with
      | none => rfl
      | some i => simp
    · rw [fenceJson_eq]
      simp only [isPrefAt]
      rw [show (btick == '\n') = false from by decide]
      simp
  | cons c t ih =>
    intro r h
    obtain ⟨h1, h2⟩ := findSub_cons_none h
    show findSub fenceJson (c :: (t ++ '\n' :: r)) = _
    rw [findSub, if_neg (by rw [prefJ_newline_through c t r h1]; simp), ih r h2]
    cases findSub fenceJson r with
    | none => rfl
    | some i => simp; omega

theorem findSub3_nil : findSub fence3 [] = none := by decide

theorem findSub3_self : findSub fence3 fence3 = some 0 := by decide

theorem findSubJ_fence3 : findSub fenceJson fence3 = none := by decide

theorem findSub3_wrapped (j : List Char) (h : findSub fence3 j = none) :
    findSub fence3 ('\n' :: (j ++ '\n' :: fence3)) = some (j.length + 2) := by
  rw [findSub, if_neg]
  · rw [findSub3_append_newline j fence3 h, findSub3_self]
    simp
  · rw [fence3_eq]
    simp only [isPrefAt]
    rw [show (btick == '\n') = false from by decide]
    simp

theorem findSubJ_wrapped_none (j : List Char) (h : findSub fence3 j = none) :
    findSub fenceJson ('\n' :: (j ++ '\n' :: fence3)) = none := by
  rw [findSub, if_neg]
  · rw [findSubJ_append_newline j fence3 h, findSubJ_fence3]
    rfl
  · rw [fenceJson_eq]
    simp only [isPrefAt]
    rw [show (btick == '\n') = false from by decide]
    simp

theorem findSub3_trail_none (j : List Char) (h : findSub fence3 j = none) :
    findSub fence3 ('\n' :: (j ++ ['\n'])) = none := by
  rw [findSub, if_neg]
  · rw [show ['\n'] = '\n' :: ([] : List Char) from rfl,
      findSub3_append_newline j [] h, findSub3_nil]
    rfl
  · rw [fence3_eq]
    simp only [isPrefAt]
    rw [show (btick == '\n') = false from by decide]
    simp

theorem findSubJ_plainfence_none (j : List Char) (h : findSub fence3 j = none) :
    findSub fenceJson (fence3 ++ '\n' :: (j ++ '\n' :: fence3)) = none := by
  rw [fence3_eq]
  show findSub fenceJson (btick :: btick :: btick :: '\n' :: (j ++ '\n' :: fence3)) = none
  rw [findSub, if_neg]
  · rw [findSub, if_neg]
    · rw [findSub, if_neg]
      · rw [findSubJ_wrapped_none j h]
        rfl
      · rw [fenceJson_eq]
        simp only [isPrefAt]
        rw [show (btick == '\n') = false from by decide]
        simp
    · rw [fenceJson_eq]
      simp only [isPrefAt]
      rw [show (btick == '\n') = false from by decide]
      simp
  · rw [fenceJson_eq]
    simp only [isPrefAt]
    rw [show ('j' == '\n') = false from by decide]
    simp

theorem pyStrip_cons_nl (x : List Char) : pyStrip ('\n' :: x) = pyStrip x := by
  unfold pyStrip
  rw [List.dropWhile_cons, if_pos (by decide)]

theorem pyStrip_append_nl (x : List Char) : pyStrip (x ++ ['\n']) = pyStrip x := by
  unfold pyStrip
  rw [List.dropWhile_append]
  by_cases he : (x.dropWhile pyWs).isEmpty
  · rw [if_pos he]
    have h1 : List.dropWhile pyWs ['\n'] = [] := by decide
    have h2 : x.dropWhile pyWs = [] := by simpa [List.isEmpty_iff] using he
    rw [h1, h2]
  · rw [if_neg he, List.reverse_append]
    rw [show (['\n'] : List Char).reverse = ['\n'] from rfl, List.singleton_append,
      List.dropWhile_cons, if_pos (by decide)]

theorem pySplitGo_succ (sep : List Char) (n : Nat) (s : List Char) :
    pySplitGo sep (n + 1) s = match findSub sep s with
      | none => [s]
      | some i => s.take i :: pySplitGo sep n (s.drop (i + sep.length)) := rfl

theorem pySplitGo_of_none (sep : List Char) (n : Nat) (s : List Char)
    (h : findSub sep s = none) : pySplitGo sep n s = [s] := by
  cases n with
  | zero => rfl
  | succ m => rw [pySplitGo_succ, h]

theorem pySplit_cons_of_some (sep s : List Char) (i : Nat) (h : findSub sep s = some i) :
    pySplit sep s = s.take i :: pySplitGo sep s.length (s.drop (i + sep.length)) := by
  rw [pySplit, pySplitGo_succ, h]

theorem pySplit_of_none (sep s : List Char) (h : findSub sep s = none) :
    pySplit sep s = [s] := pySplitGo_of_none sep _ s h

theorem pySplitGo_cons_of_some (sep : List Char) (n : Nat) (s : List Char) (i : Nat)
    (h : findSub sep s = some i) :
    pySplitGo sep (n + 1) s = s.take i :: pySplitGo sep n (s.drop (i + sep.length)) := by
  rw [pySplitGo_succ, h]

/-- Taking up to the closing fence of the wrapped payload leaves the
payload with its surrounding newlines. -/
theorem take_wrapped (j : List Char) :
    ('\n' :: (j ++ '\n' :: fence3)).take (j.length + 2) = '\n' :: (j ++ ['\n']) := by
  show '\n' :: (j ++ '\n' :: fence3).take (j.length + 1) = _
  congr 1
  rw [List.take_append 1]
  rfl

/-- A response with no fence marker is stripped as-is. -/
theorem extract_json_bare (j : List Char) (h : findSub fence3 j = none) :
    extract_json j = pyStrip j := by
  have hJ : pyIn fenceJson j = false := by
    rw [pyIn, findSub3_none_implies_J j h]; rfl
  have h3 : pyIn fence3 j = false := by rw [pyIn, h]; rfl
  unfold extract_json
  rw [hJ, h3]
  rfl

/-- Extraction undoes a tagged code fence around a payload containing no
triple backtick. -/
theorem extract_json_tagged (j : List Char) (h : findSub fence3 j = none) :
    extract_json (fenceJson ++ '\n' :: (j ++ '\n' :: fence3)) = pyStrip j := by
  have hfind0 : findSub fenceJson (fenceJson ++ '\n' :: (j ++ '\n' :: fence3)) = some 0 :=
    findSub_self_append _ _ (by decide)
  have hIn : pyIn fenceJson (fenceJson ++ '\n' :: (j ++ '\n' :: fence3)) = true := by
    rw [pyIn, hfind0]; rfl
  have hsplit1 : pySplit fenceJson (fenceJson ++ '\n' :: (j ++ '\n' :: fence3)) =
      [[], '\n' :: (j ++ '\n' :: fence3)] := by
    rw [pySplit_cons_of_some _ _ 0 hfind0, List.take_zero, Nat.zero_add, List.drop_left,
      pySplitGo_of_none _ _ _ (findSubJ_wrapped_none j h)]
  have hsplit2 : pySplit fence3 ('\n' :: (j ++ '\n' :: fence3)) =
      ('\n' :: (j ++ '\n' :: fence3)).take (j.length + 2) ::
        pySplitGo fence3 ('\n' :: (j ++ '\n' :: fence3)).length
          (('\n' :: (j ++ '\n' :: fence3)).drop (j.length + 2 + fence3.length)) :=
    pySplit_cons_of_some _ _ _ (findSub3_wrapped j h)
  unfold extract_json
  rw [hIn]
  show pyStrip ((pySplit fence3
    ((pySplit fenceJson (fenceJson ++ '\n' :: (j ++ '\n' :: fence3))).getD 1 [])).getD 0 []) =
    pyStrip j
  rw [hsplit1]
  show pyStrip ((pySplit fence3 ('\n' :: (j ++ '\n' :: fence3))).getD 0 []) = pyStrip j
  rw [hsplit2]
  show pyStrip (('\n' :: (j ++ '\n' :: fence3)).take (j.length + 2)) = pyStrip j
  rw [take_wrapped, pyStrip_cons_nl, pyStrip_append_nl]

/-- Extraction undoes an untagged code fence around a payload containing
no triple backtick. -/
theorem extract_json_plain (j : List Char) (h : findSub fence3 j = none) :
    extract_json (fence3 ++ '\n' :: (j ++ '\n' :: fence3)) = pyStrip j := by
  have hInJ : pyIn fenceJson (fence3 ++ '\n' :: (j ++ '\n' :: fence3)) = false := by
    rw [pyIn, findSubJ_plainfence_none j h]; rfl
  have hfind0 : findSub fence3 (fence3 ++ '\n' :: (j ++ '\n' :: fence3)) = some 0 :=
    findSub_self_append _ _ (by decide)
  have hIn3 : pyIn fence3 (fence3 ++ '\n' :: (j ++ '\n' :: fence3)) = true := by
    rw [pyIn, hfind0]; rfl
  have hlen : (fence3 ++ '\n' :: (j ++ '\n' :: fence3)).length =
      ('\n' :: (j ++ '\n' :: fence3)).length + 2 + 1 := by
    simp [List.length_append, show fence3.length = 3 from by decide]
    omega
  have hsplit1 : pySplit fence3 (fence3 ++ '\n' :: (j ++ '\n' :: fence3)) =
      [] :: ('\n' :: (j ++ '\n' :: fence3)).take (j.length + 2) ::
        pySplitGo fence3 (('\n' :: (j ++ '\n' :: fence3)).length + 2)
          (('\n' :: (j ++ '\n' :: fence3)).drop (j.length + 2 + fence3.length)) := by
    rw [pySplit_cons_of_some _ _ 0 hfind0, List.take_zero, Nat.zero_add, List.drop_left,
      hlen, pySplitGo_cons_of_some _ _ _ _ (findSub3_wrapped j h)]
  have hsplit2 : pySplit fence3 ('\n' :: (j ++ ['\n'])) = ['\n' :: (j ++ ['\n'])] :=
    pySplit_of_none _ _ (findSub3_trail_none j h)
  unfold extract_json
  rw [hInJ, hIn3]
  show pyStrip ((pySplit fence3
    ((pySplit fence3 (fence3 ++ '\n' :: (j ++ '\n' :: fence3))).getD 1 [])).getD 0 []) =
    pyStrip j
  rw [hsplit1]
  show pyStrip ((pySplit fence3
    (('\n' :: (j ++ '\n' :: fence3)).take (j.length + 2))).getD 0 []) = pyStrip j
  rw [take_wrapped, hsplit2]
  show pyStrip ('\n' :: (j ++ ['\n'])) = pyStrip j
  rw [pyStrip_cons_nl, pyStrip_append_nl]

/-- Claim C5, counterexample: the invariance fails for a JSON payload
that itself contains a triple backtick.  The string
`{"title": "a```b", "content": "c"}` parses and validates to a record
when handed to `json.loads` directly, yet the extraction pipeline on the
bare response mis-splits at the backticks inside the string literal and
produces no record at all (in either tool's pipeline), so bare and fenced
responses cannot produce the same validated record. -/
theorem C5_counterexample :
    bareParseValidate "\x7b\"title\": \"a```b\", \"content\": \"c\"\x7d".toList =
      some ⟨"a```b".toList, "c".toList⟩ ∧
    pipelineSimple "\x7b\"title\": \"a```b\", \"content\": \"c\"\x7d".toList = none ∧
    pipelineNews "\x7b\"title\": \"a```b\", \"content\": \"c\"\x7d".toList = none :=
  ⟨rfl, rfl, rfl⟩

/-- Claim C5 as amended: for every payload string containing no triple
backtick, extraction returns the stripped payload unchanged whether the
response is bare, wrapped in a `json`-tagged code fence, or wrapped in an
untagged code fence — hence the full
extraction-plus-parse-plus-validate pipeline of either tool produces the
same result on the bare and both fenced responses. -/
theorem C5_amended (j : List Char) (h : findSub fence3 j = none) :
    extract_json j = pyStrip j ∧
    extract_json (fenceJson ++ '\n' :: (j ++ '\n' :: fence3)) = pyStrip j ∧
    extract_json (fence3 ++ '\n' :: (j ++ '\n' :: fence3)) = pyStrip j ∧
    pipelineSimple (fenceJson ++ '\n' :: (j ++ '\n' :: fence3)) = pipelineSimple j ∧
    pipelineSimple (fence3 ++ '\n' :: (j ++ '\n' :: fence3)) = pipelineSimple j ∧
    pipelineNews (fenceJson ++ '\n' :: (j ++ '\n' :: fence3)) = pipelineNews j ∧
    pipelineNews (fence3 ++ '\n' :: (j ++ '\n' :: fence3)) = pipelineNews j := by
  have h1 := extract_json_bare j h
  have h2 := extract_json_tagged j h
  have h3 := extract_json_plain j h
  refine ⟨h1, h2, h3, ?_, ?_, ?_, ?_⟩
  · unfold pipelineSimple
    rw [h1, h2]
  · unfold pipelineSimple
    rw [h1, h3]
  · unfold pipelineNews
    rw [h1, h2]
  · unfold pipelineNews
    rw [h1, h3]

theorem C5_amended_witness :
    findSub fence3 "\x7b\"title\": \"t\", \"content\": \"c\"\x7d".toList = none ∧
    (extract_json "\x7b\"title\": \"t\", \"content\": \"c\"\x7d".toList =
        pyStrip "\x7b\"title\": \"t\", \"content\": \"c\"\x7d".toList ∧
      extract_json (fenceJson ++ '\n' ::
          ("\x7b\"title\": \"t\", \"content\": \"c\"\x7d".toList ++ '\n' :: fence3)) =
        pyStrip "\x7b\"title\": \"t\", \"content\": \"c\"\x7d".toList ∧
      extract_json (fence3 ++ '\n' ::
          ("\x7b\"title\": \"t\", \"content\": \"c\"\x7d".toList ++ '\n' :: fence3)) =
        pyStrip "\x7b\"title\": \"t\", \"content\": \"c\"\x7d".toList ∧
      pipelineSimple (fenceJson ++ '\n' ::
          ("\x7b\"title\": \"t\", \"content\": \"c\"\x7d".toList ++ '\n' :: fence3)) =
        pipelineSimple "\x7b\"title\": \"t\", \"content\": \"c\"\x7d".toList ∧
      pipelineSimple (fence3 ++ '\n' ::
          ("\x7b\"title\": \"t\", \"content\": \"c\"\x7d".toList ++ '\n' :: fence3)) =
        pipelineSimple "\x7b\"title\": \"t\", \"content\": \"c\"\x7d".toList ∧
      pipelineNews (fenceJson ++ '\n' ::
          ("\x7b\"title\": \"t\", \"content\": \"c\"\x7d".toList ++ '\n' :: fence3)) =
        pipelineNews "\x7b\"title\": \"t\", \"content\": \"c\"\x7d".toList ∧
      pipelineNews (fence3 ++ '\n' ::
          ("\x7b\"title\": \"t\", \"content\": \"c\"\x7d".toList ++ '\n' :: fence3)) =
        pipelineNews "\x7b\"title\": \"t\", \"content\": \"c\"\x7d".toList) :=
  ⟨rfl, C5_amended "\x7b\"title\": \"t\", \"content\": \"c\"\x7d".toList rfl⟩

end Fastdata
